import Mathlib

/-!
Verification development for the InSARPlus repository (step-1 Sentinel search
and step-2 Sentinel download scripts).

The Python scripts delegate geometry to shapely.  We embed geometries as
finite sets of unit grid cells: `intersection` is set intersection and `area`
is the cell count, which faithfully reflects the algebraic facts the scripts
rely on (intersection is contained in both operands, area is a nonnegative
number, the empty geometry has area zero).  Datetimes are embedded as
integers (day ordinals) or as packed `Nat` keys where a finer resolution is
needed; floating point arithmetic on areas is embedded as exact rational
arithmetic.  Exceptions raised by library calls are embedded as explicit
failure values, and `try/except` blocks as the corresponding case splits.
-/

namespace InSARPlus

/-- Geometry model: a finite set of unit grid cells. -/
abbrev Geom := Finset (ℤ × ℤ)

/-- `shapely` area of a geometry in the cell model: the number of cells,
as a rational number (the scripts treat areas as floats). -/
def geomArea (g : Geom) : ℚ := (g.card : ℚ)

/-- `shapely` intersection of two geometries in the cell model. -/
def geomIntersection (g₁ g₂ : Geom) : Geom := g₁ ∩ g₂

/-- Embedding of `calculate_coverage_percent` from
`src/step_1/sentinel_search_asf/sentinel_search_asf.py` (lines 182-195),
happy path (no shapely exception): if the intersection is empty return 0.0;
if the region area is 0 return 0.0; otherwise
`(intersection.area / region_area) * 100.0`. -/
def calculate_coverage_percent (region_geom product_geom : Geom) : ℚ :=
  let intersection := geomIntersection region_geom product_geom
  if intersection = ∅ then 0
  else
    let region_area := geomArea region_geom
    if region_area = 0 then 0
    else (geomArea intersection / region_area) * 100

/-- Embedding of `calculate_coverage_percent` including its `except` branch:
`fails = true` models a shapely exception anywhere in the body, which the
function catches, logging the error and returning 0.0. -/
def calculate_coverage_percent_safe (fails : Bool) (region_geom product_geom : Geom) : ℚ :=
  if fails then 0 else calculate_coverage_percent region_geom product_geom

/-- The per-product acceptance decision of the step-1 search loop
(`search_images_asf`, lines 252-267): a product is skipped when
`coverage < min_coverage` and appended to `all_products` otherwise. -/
def step1_keep (min_coverage : ℚ) (region_geom product_geom : Geom) : Bool :=
  if calculate_coverage_percent region_geom product_geom < min_coverage then false else true

/-- The parsed footprint of a step-2 scene:
`missing` models a falsy `properties.get('footprint')`;
`parseFail` models `shapely.wkt.loads` raising on the footprint string;
`geom isPolygon g` models a successful parse, recording whether the result
is a `Polygon`. -/
inductive Footprint where
  | missing : Footprint
  | parseFail : Footprint
  | geom (isPolygon : Bool) (g : Geom) : Footprint
deriving DecidableEq

/-- An ASF search result as seen by `search_slc_images` in
`src/step_2/sentinel_download_asf/sentinel_download_asf.py`. -/
structure Scene where
  fileID : String
  footprint : Footprint
deriving DecidableEq

/-- The per-scene body of the step-2 coverage filter loop
(`search_slc_images`, lines 194-216): no footprint keeps the scene; a parse
failure or any other exception (including division by a zero region area)
drops it; a non-Polygon geometry drops it; otherwise the scene is kept
exactly when `(intersection.area / region_geom.area) * 100 >= min_coverage`. -/
def step2_scene_kept (min_coverage : ℤ) (region_geom : Geom) (sc : Scene) : Bool :=
  match sc.footprint with
  | Footprint.missing => true
  | Footprint.parseFail => false
  | Footprint.geom isPolygon g =>
    if isPolygon = false then false
    else if geomArea region_geom = 0 then false
    else decide ((min_coverage : ℚ) ≤ geomArea (geomIntersection region_geom g) / geomArea region_geom * 100)

/-- Embedding of the filtering part of `search_slc_images` (lines 185-223):
when `min_coverage == 0` the coverage filter is skipped entirely and the raw
results are returned; otherwise the scenes passing `step2_scene_kept` are
returned in order. -/
def search_slc_images_filter (min_coverage : ℤ) (region_geom : Geom) (scenes : List Scene) : List Scene :=
  if min_coverage = 0 then scenes
  else scenes.filter (step2_scene_kept min_coverage region_geom)

lemma geomArea_nonneg (g : Geom) : 0 ≤ geomArea g := by
  simp [geomArea]

lemma geomArea_inter_le (r p : Geom) : geomArea (geomIntersection r p) ≤ geomArea r := by
  simp only [geomArea, geomIntersection]
  exact_mod_cast Finset.card_le_card (Finset.inter_subset_left)

/-- **C1.** For every region geometry of positive area and every product
geometry, the step-1 coverage score is `100 * area(inter) / area(region)`;
the step-1 search keeps a product iff its score is at least
`coverage_percent`; and the step-2 search keeps a scene whose footprint is a
polygon iff `100 * area(inter) / area(region)` is at least `min_coverage`. -/
theorem claim_C1 (region g : Geom) (minCov₁ : ℚ) (minCov₂ : ℤ)
    (scenes : List Scene) (sc : Scene) (pg : Geom)
    (hpos : 0 < geomArea region) :
    calculate_coverage_percent region g
        = 100 * geomArea (geomIntersection region g) / geomArea region
    ∧ (step1_keep minCov₁ region g = true
        ↔ minCov₁ ≤ calculate_coverage_percent region g)
    ∧ (sc ∈ scenes → sc.footprint = Footprint.geom true pg →
        (sc ∈ search_slc_images_filter minCov₂ region scenes
          ↔ (minCov₂ : ℚ) ≤ 100 * geomArea (geomIntersection region pg) / geomArea region)) := by
  have hne : geomArea region ≠ 0 := ne_of_gt hpos
  refine ⟨?_, ?_, ?_⟩
  · unfold calculate_coverage_percent
    by_cases hint : geomIntersection region g = ∅
    · simp [hint, geomArea]
    · simp only [hint, if_false, hne, if_neg hne]
      ring
  · unfold step1_keep
    constructor
    · intro h
      by_contra hlt
      push_neg at hlt
      simp [hlt] at h
    · intro h
      have : ¬ calculate_coverage_percent region g < minCov₁ := not_lt.mpr h
      simp [this]
  · intro hmem hfp
    by_cases hz : minCov₂ = 0
    · subst hz
      unfold search_slc_images_filter
      simp only [if_pos rfl]
      constructor
      · intro _
        push_cast
        exact div_nonneg
          (by nlinarith [geomArea_nonneg (geomIntersection region pg)])
          (geomArea_nonneg region)
      · intro _
        exact hmem
    · unfold search_slc_images_filter
      rw [if_neg hz, List.mem_filter]
      constructor
      · rintro ⟨-, hkept⟩
        rw [step2_scene_kept, hfp] at hkept
        simp only [if_neg (show ¬(true = false) by decide), if_neg hne, decide_eq_true_eq] at hkept
        calc (minCov₂ : ℚ) ≤ geomArea (geomIntersection region pg) / geomArea region * 100 := hkept
          _ = 100 * geomArea (geomIntersection region pg) / geomArea region := by ring
      · intro hcov
        refine ⟨hmem, ?_⟩
        rw [step2_scene_kept, hfp]
        simp only [if_neg (show ¬(true = false) by decide), if_neg hne, decide_eq_true_eq]
        calc (minCov₂ : ℚ) ≤ 100 * geomArea (geomIntersection region pg) / geomArea region := hcov
          _ = geomArea (geomIntersection region pg) / geomArea region * 100 := by ring

/-- A concrete two-cell region used to exercise the theorems. -/
def regionW : Geom := {(0, 0), (0, 1)}

/-- A concrete one-cell product footprint overlapping half of `regionW`. -/
def productW : Geom := {(0, 0)}

/-- A concrete scene whose footprint is the polygon `productW`. -/
def sceneW : Scene := { fileID := "S1A_TEST", footprint := Footprint.geom true productW }

/-- Witness for C1 at a concrete region of area 2 and a one-cell footprint. -/
theorem claim_C1_witness :
    0 < geomArea regionW
    ∧ (calculate_coverage_percent regionW productW
          = 100 * geomArea (geomIntersection regionW productW) / geomArea regionW
      ∧ (step1_keep 50 regionW productW = true
          ↔ (50 : ℚ) ≤ calculate_coverage_percent regionW productW)
      ∧ (sceneW ∈ [sceneW] → sceneW.footprint = Footprint.geom true productW →
          (sceneW ∈ search_slc_images_filter 50 regionW [sceneW]
            ↔ ((50 : ℤ) : ℚ) ≤ 100 * geomArea (geomIntersection regionW productW) / geomArea regionW))) :=
  ⟨by decide, claim_C1 regionW productW 50 50 [sceneW] sceneW productW (by decide)⟩

/-- **C9.** `calculate_coverage_percent` is total: it always returns a value
in `[0, 100]`, returning 0 on an empty intersection, on a zero-area region,
and on a caught exception. -/
theorem claim_C9 (fails : Bool) (region g : Geom) :
    0 ≤ calculate_coverage_percent_safe fails region g
    ∧ calculate_coverage_percent_safe fails region g ≤ 100
    ∧ (geomIntersection region g = ∅ → calculate_coverage_percent region g = 0)
    ∧ (geomArea region = 0 → calculate_coverage_percent region g = 0)
    ∧ (fails = true → calculate_coverage_percent_safe fails region g = 0) := by
  have hbounds : 0 ≤ calculate_coverage_percent region g
      ∧ calculate_coverage_percent region g ≤ 100 := by
    unfold calculate_coverage_percent
    by_cases hint : geomIntersection region g = ∅
    · simp [hint]
    · simp only [hint, if_false]
      by_cases hz : geomArea region = 0
      · simp [hz]
      · simp only [hz, if_neg hz]
        have hpos : 0 < geomArea region := lt_of_le_of_ne (geomArea_nonneg region) (Ne.symm hz)
        constructor
        · have h0 : 0 ≤ geomArea (geomIntersection region g) := geomArea_nonneg _
          positivity
        · have hle : geomArea (geomIntersection region g) / geomArea region ≤ 1 :=
            (div_le_one hpos).mpr (geomArea_inter_le region g)
          calc geomArea (geomIntersection region g) / geomArea region * 100
              ≤ 1 * 100 := by
                exact mul_le_mul_of_nonneg_right hle (by norm_num)
            _ = 100 := by norm_num
  refine ⟨?_, ?_, ?_, ?_, ?_⟩
  · cases fails <;> simp [calculate_coverage_percent_safe, hbounds.1]
  · cases fails <;> simp [calculate_coverage_percent_safe, hbounds.2]
  · intro h
    unfold calculate_coverage_percent
    simp [h]
  · intro h
    unfold calculate_coverage_percent
    by_cases hint : geomIntersection region g = ∅ <;> simp [hint, h]
  · intro h
    simp [calculate_coverage_percent_safe, h]

/-- Witness for C9 at the concrete region and footprint. -/
theorem claim_C9_witness :
    geomArea regionW = 0 → calculate_coverage_percent regionW productW = 0 :=
  (claim_C9 false regionW productW).2.2.2.1

/-- **C10.** In the step-2 coverage filter, a scene without a footprint is
always kept whatever the threshold, and (whenever the coverage filter is
active, i.e. `min_coverage ≠ 0`) a scene whose footprint parses to a
non-Polygon geometry is always dropped, whatever its overlap. -/
theorem claim_C10 (minCov : ℤ) (region : Geom) (scenes : List Scene) (sc : Scene)
    (hmem : sc ∈ scenes) :
    (sc.footprint = Footprint.missing →
      sc ∈ search_slc_images_filter minCov region scenes)
    ∧ (∀ g : Geom, sc.footprint = Footprint.geom false g → minCov ≠ 0 →
      sc ∉ search_slc_images_filter minCov region scenes) := by
  constructor
  · intro hfp
    unfold search_slc_images_filter
    by_cases hz : minCov = 0
    · simp [hz, hmem]
    · rw [if_neg hz, List.mem_filter]
      exact ⟨hmem, by rw [step2_scene_kept, hfp]⟩
  · intro g hfp hz
    unfold search_slc_images_filter
    rw [if_neg hz, List.mem_filter]
    rintro ⟨-, hkept⟩
    rw [step2_scene_kept, hfp] at hkept
    simp at hkept

/-- A concrete scene with no footprint in its metadata. -/
def sceneNoFp : Scene := { fileID := "S1B_TEST", footprint := Footprint.missing }

/-- Witness for C10: a footprint-less scene passes the filter at threshold 80. -/
theorem claim_C10_witness :
    sceneNoFp ∈ [sceneNoFp]
    ∧ (sceneNoFp.footprint = Footprint.missing →
        sceneNoFp ∈ search_slc_images_filter 80 regionW [sceneNoFp]) :=
  ⟨by decide, (claim_C10 80 regionW [sceneNoFp] sceneNoFp (by decide)).1⟩

/-!
Retry loops.  A remote call is embedded as a list of attempt outcomes
(`some a` = the attempt succeeds with value `a`, `none` = it raises); the
list length is the maximum number of attempts the source allows.  Each loop
returns the final result, the number of attempts actually made, and the list
of pauses slept between consecutive attempts.
-/

/-- The step-1 archive-query retry loop shape (`search_images_asf`,
lines 226-275): try the attempts in order; on success stop; once the last
allowed attempt has failed, raise (`Except.error`); sleep `pause` seconds
before each retry. -/
def retryRaise {α : Type} (pause : ℕ) : List (Option α) → Except Unit α × ℕ × List ℕ
  | [] => (Except.error (), 0, [])
  | o :: rest =>
    match o with
    | some a => (Except.ok a, 1, [])
    | none =>
      match rest with
      | [] => (Except.error (), 1, [])
      | r :: rs =>
        let t := retryRaise pause (r :: rs)
        (t.1, t.2.1 + 1, pause :: t.2.2)

/-- The retry loop shape of the step-2 fetches (`search_slc_images`,
`download_orbit`, `download_single_slc`): try the attempts in order; on
success stop; after the last allowed attempt has failed, return `none`
instead of raising; sleep `pause` seconds before each retry. -/
def retryReturn {α : Type} (pause : ℕ) : List (Option α) → Option α × ℕ × List ℕ
  | [] => (none, 0, [])
  | o :: rest =>
    match o with
    | some a => (some a, 1, [])
    | none =>
      match rest with
      | [] => (none, 1, [])
      | r :: rs =>
        let t := retryReturn pause (r :: rs)
        (t.1, t.2.1 + 1, pause :: t.2.2)

/-- Each step-1 archive query: at most 3 attempts, 5-second pauses, raising
after the third failure (`max_retries = 3`, `time.sleep(5)`). -/
def step1_search_attempts {α : Type} (o₁ o₂ o₃ : Option α) : Except Unit α × ℕ × List ℕ :=
  retryRaise 5 [o₁, o₂, o₃]

/-- The step-2 SLC search: at most 3 attempts, 10-second pauses, returning
the empty list after the third failure (`search_slc_images`, lines 178-231). -/
def step2_search_attempts {α : Type} (o₁ o₂ o₃ : Option (List α)) : List α × ℕ × List ℕ :=
  let t := retryReturn 10 [o₁, o₂, o₃]
  (t.1.getD [], t.2.1, t.2.2)

/-- Each orbit-file page fetch: at most 3 attempts, 5-second pauses,
falling through (failure value) after the third failure
(`download_orbit`, lines 250-307). -/
def orbit_page_attempts {α : Type} (o₁ o₂ o₃ : Option α) : Option α × ℕ × List ℕ :=
  retryReturn 5 [o₁, o₂, o₃]

/-- Each SLC scene download: at most 5 attempts, 15-second pauses, returning
`None` after the fifth failure (`download_single_slc`, lines 328-352). -/
def slc_download_attempts {α : Type} (o₁ o₂ o₃ o₄ o₅ : Option α) : Option α × ℕ × List ℕ :=
  retryReturn 15 [o₁, o₂, o₃, o₄, o₅]

lemma retryRaise3_spec {α : Type} (p : ℕ) (o₁ o₂ o₃ : Option α) :
    (retryRaise p [o₁, o₂, o₃]).2.1 ≤ 3
    ∧ (∀ t ∈ (retryRaise p [o₁, o₂, o₃]).2.2, t = p)
    ∧ (retryRaise p [o₁, o₂, o₃]).2.2.length + 1 = (retryRaise p [o₁, o₂, o₃]).2.1
    ∧ (o₁ = none → o₂ = none → o₃ = none →
        (retryRaise p [o₁, o₂, o₃]).1 = Except.error ()) := by
  cases o₁ <;> cases o₂ <;> cases o₃ <;> simp [retryRaise]

lemma retryReturn3_spec {α : Type} (p : ℕ) (o₁ o₂ o₃ : Option α) :
    (retryReturn p [o₁, o₂, o₃]).2.1 ≤ 3
    ∧ (∀ t ∈ (retryReturn p [o₁, o₂, o₃]).2.2, t = p)
    ∧ (retryReturn p [o₁, o₂, o₃]).2.2.length + 1 = (retryReturn p [o₁, o₂, o₃]).2.1
    ∧ (o₁ = none → o₂ = none → o₃ = none →
        (retryReturn p [o₁, o₂, o₃]).1 = none) := by
  cases o₁ <;> cases o₂ <;> cases o₃ <;> simp [retryReturn]

lemma retryReturn5_spec {α : Type} (p : ℕ) (o₁ o₂ o₃ o₄ o₅ : Option α) :
    (retryReturn p [o₁, o₂, o₃, o₄, o₅]).2.1 ≤ 5
    ∧ (∀ t ∈ (retryReturn p [o₁, o₂, o₃, o₄, o₅]).2.2, t = p)
    ∧ (retryReturn p [o₁, o₂, o₃, o₄, o₅]).2.2.length + 1
        = (retryReturn p [o₁, o₂, o₃, o₄, o₅]).2.1
    ∧ (o₁ = none → o₂ = none → o₃ = none → o₄ = none → o₅ = none →
        (retryReturn p [o₁, o₂, o₃, o₄, o₅]).1 = none) := by
  cases o₁ <;> cases o₂ <;> cases o₃ <;> cases o₄ <;> cases o₅ <;> simp [retryReturn]

/-- **C3.** Each step-1 archive query is attempted at most 3 times with
5-second pauses between consecutive attempts and raises after all 3 attempts
fail; each orbit-file page fetch (at most 3 attempts, 5-second pauses), each
step-2 search (at most 3 attempts, 10-second pauses) and each SLC download
(at most 5 attempts, 15-second pauses) instead returns a failure value
(`none`, resp. the empty list) after exhausting its retries. -/
theorem claim_C3 {α β γ : Type}
    (o₁ o₂ o₃ : Option α) (w₁ w₂ w₃ : Option β) (s₁ s₂ s₃ : Option (List γ))
    (d₁ d₂ d₃ d₄ d₅ : Option β) :
    ((step1_search_attempts o₁ o₂ o₃).2.1 ≤ 3
      ∧ (∀ t ∈ (step1_search_attempts o₁ o₂ o₃).2.2, t = 5)
      ∧ (step1_search_attempts o₁ o₂ o₃).2.2.length + 1
          = (step1_search_attempts o₁ o₂ o₃).2.1
      ∧ (o₁ = none → o₂ = none → o₃ = none →
          (step1_search_attempts o₁ o₂ o₃).1 = Except.error ()))
    ∧ ((orbit_page_attempts w₁ w₂ w₃).2.1 ≤ 3
      ∧ (∀ t ∈ (orbit_page_attempts w₁ w₂ w₃).2.2, t = 5)
      ∧ (w₁ = none → w₂ = none → w₃ = none →
          (orbit_page_attempts w₁ w₂ w₃).1 = none))
    ∧ ((step2_search_attempts s₁ s₂ s₃).2.1 ≤ 3
      ∧ (∀ t ∈ (step2_search_attempts s₁ s₂ s₃).2.2, t = 10)
      ∧ (s₁ = none → s₂ = none → s₃ = none →
          (step2_search_attempts s₁ s₂ s₃).1 = []))
    ∧ ((slc_download_attempts d₁ d₂ d₃ d₄ d₅).2.1 ≤ 5
      ∧ (∀ t ∈ (slc_download_attempts d₁ d₂ d₃ d₄ d₅).2.2, t = 15)
      ∧ (d₁ = none → d₂ = none → d₃ = none → d₄ = none → d₅ = none →
          (slc_download_attempts d₁ d₂ d₃ d₄ d₅).1 = none)) := by
  refine ⟨⟨?_, ?_, ?_, ?_⟩, ⟨?_, ?_, ?_⟩, ⟨?_, ?_, ?_⟩, ⟨?_, ?_, ?_⟩⟩
  · exact (retryRaise3_spec 5 o₁ o₂ o₃).1
  · exact (retryRaise3_spec 5 o₁ o₂ o₃).2.1
  · exact (retryRaise3_spec 5 o₁ o₂ o₃).2.2.1
  · exact (retryRaise3_spec 5 o₁ o₂ o₃).2.2.2
  · exact (retryReturn3_spec 5 w₁ w₂ w₃).1
  · exact (retryReturn3_spec 5 w₁ w₂ w₃).2.1
  · exact (retryReturn3_spec 5 w₁ w₂ w₃).2.2.2
  · exact (retryReturn3_spec 10 s₁ s₂ s₃).1
  · exact (retryReturn3_spec 10 s₁ s₂ s₃).2.1
  · intro h₁ h₂ h₃
    have := (retryReturn3_spec 10 s₁ s₂ s₃).2.2.2 h₁ h₂ h₃
    simp [step2_search_attempts, this]
  · exact (retryReturn5_spec 15 d₁ d₂ d₃ d₄ d₅).1
  · exact (retryReturn5_spec 15 d₁ d₂ d₃ d₄ d₅).2.1
  · exact (retryReturn5_spec 15 d₁ d₂ d₃ d₄ d₅).2.2.2

/-- Witness for C3: all attempts fail for every resource; the step-1 query
raises, the others return their failure values, and the attempt counts and
pauses are exactly as claimed. -/
theorem claim_C3_witness :
    ((none : Option ℕ) = none)
    ∧ (step1_search_attempts (none : Option ℕ) none none).1 = Except.error ()
    ∧ (orbit_page_attempts (none : Option ℕ) none none).1 = none
    ∧ (step2_search_attempts (none : Option (List ℕ)) none none).1 = []
    ∧ (slc_download_attempts (none : Option ℕ) none none none none).1 = none :=
  ⟨rfl,
    (claim_C3 (none : Option ℕ) none none (none : Option ℕ) none none
        (none : Option (List ℕ)) none none
        (none : Option ℕ) none none none none).1.2.2.2 rfl rfl rfl,
    (claim_C3 (none : Option ℕ) none none (none : Option ℕ) none none
        (none : Option (List ℕ)) none none
        (none : Option ℕ) none none none none).2.1.2.2 rfl rfl rfl,
    (claim_C3 (none : Option ℕ) none none (none : Option ℕ) none none
        (none : Option (List ℕ)) none none
        (none : Option ℕ) none none none none).2.2.1.2.2 rfl rfl rfl,
    (claim_C3 (none : Option ℕ) none none (none : Option ℕ) none none
        (none : Option (List ℕ)) none none
        (none : Option ℕ) none none none none).2.2.2.2.2 rfl rfl rfl rfl rfl⟩

/-!
Grouping (`process_and_plot_groups`, step-1, lines 283-332).  A product
record carries the fields the script stores in `all_products`; the two
Python dicts are embedded as insertion-ordered association lists, updated
exactly as the loop does.
-/

/-- A record appended to `all_products` by `search_images_asf`
(lines 258-267).  Dates are day ordinals. -/
structure Step1Product where
  filename : String
  date : ℤ
  platform : String
  polarization : String
  orbit_direction : String
  path : String
  frame : String
  coverage_percent : ℚ
deriving DecidableEq

/-- Detailed group key `(polarization, orbit_direction, platform, path, frame)`. -/
abbrev KeyFull := String × String × String × String × String

/-- Simple group key `(polarization, orbit_direction, path)`. -/
abbrev KeySimple := String × String × String

/-- `key_full` of a product (line 288). -/
def keyFull (p : Step1Product) : KeyFull :=
  (p.polarization, p.orbit_direction, p.platform, p.path, p.frame)

/-- `key_simple` of a product (line 294). -/
def keySimple (p : Step1Product) : KeySimple :=
  (p.polarization, p.orbit_direction, p.path)

/-- The value stored for each group: `{'count': ..., 'dates': ..., 'products': ...}`. -/
structure GroupEntry where
  count : ℕ
  dates : List ℤ
  products : List Step1Product
deriving DecidableEq

/-- The three updates lines 291-293 / 297-299 perform on an existing group. -/
def pushEntry (e : GroupEntry) (p : Step1Product) : GroupEntry :=
  { count := e.count + 1, dates := e.dates ++ [p.date], products := e.products ++ [p] }

/-- The entry created for a key not yet in the dict (lines 290 / 296),
after the first product is pushed. -/
def initEntry (p : Step1Product) : GroupEntry :=
  { count := 1, dates := [p.date], products := [p] }

/-- Update the association-list entry at key `k` (identity elsewhere). -/
def updateKey {κ : Type} [DecidableEq κ] (k : κ) (p : Step1Product) (kv : κ × GroupEntry) :
    κ × GroupEntry :=
  if kv.1 = k then (kv.1, pushEntry kv.2 p) else kv

/-- One iteration of the grouping loop: create the key if absent, otherwise
update its entry in place. -/
def addToGroup {κ : Type} [DecidableEq κ] (m : List (κ × GroupEntry)) (k : κ)
    (p : Step1Product) : List (κ × GroupEntry) :=
  if (m.lookup k).isSome then m.map (updateKey k p) else m ++ [(k, initEntry p)]

/-- The grouping dict built by the loop of `process_and_plot_groups` for a
given key function (insertion-ordered, like a Python dict). -/
def groupProducts {κ : Type} [DecidableEq κ] (key : Step1Product → κ)
    (ps : List Step1Product) : List (κ × GroupEntry) :=
  ps.foldl (fun m p => addToGroup m (key p) p) []

/-- Embedding of the return value of `process_and_plot_groups`
(lines 330-332): the detailed and simple groupings filtered to groups with
`count > min_images`. -/
def process_and_plot_groups (min_images : ℕ) (ps : List Step1Product) :
    List (KeyFull × GroupEntry) × List (KeySimple × GroupEntry) :=
  ((groupProducts keyFull ps).filter (fun kv => min_images < kv.2.count),
   (groupProducts keySimple ps).filter (fun kv => min_images < kv.2.count))

/-- The keys of an association list, in order. -/
def keysOf {κ : Type} (m : List (κ × GroupEntry)) : List κ := m.map Prod.fst

lemma fst_updateKey {κ : Type} [DecidableEq κ] (k : κ) (p : Step1Product)
    (kv : κ × GroupEntry) : (updateKey k p kv).1 = kv.1 := by
  unfold updateKey
  split <;> rfl

lemma updateKey_eq {κ : Type} [DecidableEq κ] {k : κ} (p : Step1Product)
    {kv : κ × GroupEntry} (h : kv.1 = k) : updateKey k p kv = (kv.1, pushEntry kv.2 p) := by
  simp [updateKey, h]

lemma updateKey_ne {κ : Type} [DecidableEq κ] {k : κ} (p : Step1Product)
    {kv : κ × GroupEntry} (h : kv.1 ≠ k) : updateKey k p kv = kv := by
  simp [updateKey, h]

lemma keysOf_map_updateKey {κ : Type} [DecidableEq κ] (k : κ) (p : Step1Product)
    (m : List (κ × GroupEntry)) : keysOf (m.map (updateKey k p)) = keysOf m := by
  unfold keysOf
  rw [List.map_map]
  exact List.map_congr_left (fun kv _ => fst_updateKey _ _ kv)

lemma lookup_isSome_iff {κ β : Type} [DecidableEq κ] (m : List (κ × β)) (k : κ) :
    (m.lookup k).isSome = true ↔ k ∈ m.map Prod.fst := by
  induction m with
  | nil => simp
  | cons kv rest ih =>
    rcases kv with ⟨a, b⟩
    by_cases hk : k = a
    · subst hk
      simp [List.lookup]
    · have hbe : (k == a) = false := by simp [hk]
      simp [List.lookup, hbe, ih, hk]

lemma map_updateKey_of_not_mem {κ : Type} [DecidableEq κ] (k : κ) (p : Step1Product)
    (m : List (κ × GroupEntry)) (hk : k ∉ keysOf m) : m.map (updateKey k p) = m := by
  induction m with
  | nil => rfl
  | cons kv rest ih =>
    simp only [keysOf, List.map_cons, List.mem_cons] at hk
    push_neg at hk
    simp only [List.map_cons]
    rw [ih (by simpa [keysOf] using hk.2)]
    unfold updateKey
    rw [if_neg (by exact fun h => hk.1 h.symm)]

lemma sum_counts_map_updateKey {κ : Type} [DecidableEq κ] (k : κ) (p : Step1Product) :
    ∀ m : List (κ × GroupEntry), (keysOf m).Nodup → k ∈ keysOf m →
      ((m.map (updateKey k p)).map (fun kv => kv.2.count)).sum
        = (m.map (fun kv => kv.2.count)).sum + 1 := by
  intro m
  induction m with
  | nil => simp [keysOf]
  | cons kv rest ih =>
    intro hnd hk
    simp only [keysOf, List.map_cons, List.nodup_cons] at hnd
    by_cases h : kv.1 = k
    · have hnotin : k ∉ keysOf rest := by
        rw [← h]; exact fun hc => hnd.1 (by simpa [keysOf] using hc)
      rw [List.map_cons, map_updateKey_of_not_mem k p rest hnotin, updateKey_eq p h]
      simp only [List.map_cons, List.sum_cons, pushEntry]
      omega
    · have hk2 : k ∈ keysOf rest := by
        simp only [keysOf, List.map_cons, List.mem_cons] at hk
        rcases hk with hk | hk
        · exact absurd hk.symm h
        · simpa [keysOf] using hk
      have hrest := ih (by simpa [keysOf] using hnd.2) hk2
      rw [List.map_cons, updateKey_ne p h]
      simp only [List.map_cons, List.sum_cons, hrest]
      omega

lemma entry_unique_of_nodup_keys {κ : Type} (m : List (κ × GroupEntry))
    (hnd : (keysOf m).Nodup) {k : κ} {e₁ e₂ : GroupEntry}
    (h₁ : (k, e₁) ∈ m) (h₂ : (k, e₂) ∈ m) : e₁ = e₂ := by
  induction m with
  | nil => cases h₁
  | cons kv rest ih =>
    simp only [keysOf, List.map_cons, List.nodup_cons] at hnd
    rcases List.mem_cons.mp h₁ with h₁ | h₁ <;> rcases List.mem_cons.mp h₂ with h₂ | h₂
    · rw [← h₁] at h₂
      exact ((Prod.ext_iff.mp h₂).2).symm
    · exfalso
      apply hnd.1
      rw [← h₁]
      exact List.mem_map.mpr ⟨(k, e₂), h₂, rfl⟩
    · exfalso
      apply hnd.1
      rw [← h₂]
      exact List.mem_map.mpr ⟨(k, e₁), h₁, rfl⟩
    · exact ih (by simpa [keysOf] using hnd.2) h₁ h₂

/-- Loop invariant of the grouping fold: keys are distinct, every entry
holds exactly the processed products with its key (with consistent `count`
and `dates`), a key is present iff some processed product has it, and the
counts sum to the number of processed products. -/
def GroupInv {κ : Type} [DecidableEq κ] (key : Step1Product → κ)
    (done : List Step1Product) (m : List (κ × GroupEntry)) : Prop :=
  (keysOf m).Nodup
  ∧ (∀ k e, (k, e) ∈ m → e.products = done.filter (fun p => key p = k)
      ∧ e.count = e.products.length ∧ e.dates = e.products.map (fun p => p.date))
  ∧ (∀ k : κ, k ∈ keysOf m ↔ done.filter (fun p => key p = k) ≠ [])
  ∧ (m.map (fun kv => kv.2.count)).sum = done.length

lemma groupInv_step {κ : Type} [DecidableEq κ] (key : Step1Product → κ)
    (done : List Step1Product) (m : List (κ × GroupEntry)) (p : Step1Product)
    (h : GroupInv key done m) : GroupInv key (done ++ [p]) (addToGroup m (key p) p) := by
  obtain ⟨hnd, hmem, hkeys, hsum⟩ := h
  have hfilp : ∀ k : κ, key p = k →
      (done ++ [p]).filter (fun q => key q = k)
        = done.filter (fun q => key q = k) ++ [p] := by
    intro k hk
    rw [List.filter_append]
    simp [hk]
  have hfiln : ∀ k : κ, key p ≠ k →
      (done ++ [p]).filter (fun q => key q = k)
        = done.filter (fun q => key q = k) := by
    intro k hk
    rw [List.filter_append]
    simp [hk]
  unfold addToGroup
  by_cases hs : (m.lookup (key p)).isSome = true
  · rw [if_pos hs]
    have hkmem : key p ∈ keysOf m := by
      have := (lookup_isSome_iff m (key p)).mp hs
      simpa [keysOf] using this
    refine ⟨?_, ?_, ?_, ?_⟩
    · rw [keysOf_map_updateKey]; exact hnd
    · rintro k e hke
      rw [List.mem_map] at hke
      obtain ⟨⟨k₀, e₀⟩, hkv, hfe⟩ := hke
      obtain ⟨hprod, hcnt, hdat⟩ := hmem k₀ e₀ hkv
      by_cases hk0 : k₀ = key p
      · rw [updateKey_eq p hk0] at hfe
        obtain ⟨hfe1, hfe2⟩ := Prod.ext_iff.mp hfe
        simp only at hfe1 hfe2
        subst hfe1
        rw [← hfe2]
        refine ⟨?_, ?_, ?_⟩
        · simp only [pushEntry]
          rw [hprod, hfilp k₀ hk0.symm]
        · simp [pushEntry, hcnt]
        · simp [pushEntry, hdat]
      · rw [updateKey_ne p hk0] at hfe
        obtain ⟨hfe1, hfe2⟩ := Prod.ext_iff.mp hfe
        simp only at hfe1 hfe2
        subst hfe1
        rw [← hfe2]
        exact ⟨by rw [hprod, hfiln k₀ (fun hc => hk0 hc.symm)], hcnt, hdat⟩
    · intro k
      rw [keysOf_map_updateKey]
      by_cases hkp : key p = k
      · refine iff_of_true (hkp ▸ hkmem) ?_
        rw [hfilp k hkp]
        simp
      · rw [hfiln k hkp]
        exact hkeys k
    · rw [sum_counts_map_updateKey (key p) p m hnd hkmem, hsum]
      simp
  · rw [if_neg hs]
    have hknot : key p ∉ keysOf m := by
      intro hc
      exact hs ((lookup_isSome_iff m (key p)).mpr (by simpa [keysOf] using hc))
    have hdone : done.filter (fun q => key q = key p) = [] := by
      by_contra hc
      exact hknot ((hkeys (key p)).mpr hc)
    refine ⟨?_, ?_, ?_, ?_⟩
    · have : keysOf (m ++ [(key p, initEntry p)]) = keysOf m ++ [key p] := by
        simp [keysOf]
      rw [this]
      refine List.Nodup.append hnd (List.nodup_singleton _) ?_
      intro a ha hb
      rw [List.mem_singleton] at hb
      subst hb
      exact hknot ha
    · rintro k e hke
      rcases List.mem_append.mp hke with hke | hke
      · obtain ⟨hprod, hcnt, hdat⟩ := hmem k e hke
        have hne : key p ≠ k := by
          intro hc
          exact hknot (hc ▸ List.mem_map.mpr ⟨(k, e), hke, rfl⟩)
        exact ⟨by rw [hprod, hfiln k hne], hcnt, hdat⟩
      · have hpe : (k, e) = (key p, initEntry p) := List.mem_singleton.mp hke
        obtain ⟨hk, he⟩ := Prod.ext_iff.mp hpe
        simp only at hk he
        subst hk
        subst he
        refine ⟨?_, ?_, ?_⟩
        · simp only [initEntry]
          rw [hfilp (key p) rfl, hdone]
          simp
        · simp [initEntry]
        · simp [initEntry]
    · intro k
      have : keysOf (m ++ [(key p, initEntry p)]) = keysOf m ++ [key p] := by
        simp [keysOf]
      rw [this, List.mem_append, List.mem_singleton, hkeys k]
      by_cases hkp : key p = k
      · refine iff_of_true (Or.inr hkp.symm) ?_
        rw [hfilp k hkp]
        simp
      · rw [hfiln k hkp]
        constructor
        · rintro (hc | hc)
          · exact hc
          · exact absurd hc.symm hkp
        · exact Or.inl
    · rw [List.map_append, List.sum_append, hsum]
      simp [initEntry]

lemma groupInv_fold {κ : Type} [DecidableEq κ] (key : Step1Product → κ) :
    ∀ (ps done : List Step1Product) (m : List (κ × GroupEntry)),
      GroupInv key done m →
      GroupInv key (done ++ ps) (ps.foldl (fun m p => addToGroup m (key p) p) m) := by
  intro ps
  induction ps with
  | nil => intro done m h; simpa using h
  | cons p ps ih =>
    intro done m h
    have h₁ := groupInv_step key done m p h
    have h₂ := ih (done ++ [p]) (addToGroup m (key p) p) h₁
    simpa [List.append_assoc] using h₂

lemma groupInv_groupProducts {κ : Type} [DecidableEq κ] (key : Step1Product → κ)
    (ps : List Step1Product) : GroupInv key ps (groupProducts key ps) := by
  have hbase : GroupInv key [] ([] : List (κ × GroupEntry)) := by
    unfold GroupInv
    refine ⟨?_, ?_, ?_, ?_⟩ <;> simp [keysOf]
  have := groupInv_fold key ps [] [] hbase
  simpa [groupProducts] using this

/-- The grouping specification, for an arbitrary key function: each product
lies in exactly one group (the one keyed by its own key), each group's
`count` equals both its product count and its date count, and the counts sum
to the total number of products. -/
lemma grouping_spec {κ : Type} [DecidableEq κ] (key : Step1Product → κ)
    (ps : List Step1Product) :
    (∀ p ∈ ps, ∃! kv : κ × GroupEntry, kv ∈ groupProducts key ps ∧ p ∈ kv.2.products)
    ∧ (∀ p ∈ ps, ∀ kv ∈ groupProducts key ps, p ∈ kv.2.products → kv.1 = key p)
    ∧ (∀ kv ∈ groupProducts key ps,
        kv.2.count = kv.2.products.length ∧ kv.2.count = kv.2.dates.length)
    ∧ ((groupProducts key ps).map (fun kv => kv.2.count)).sum = ps.length := by
  obtain ⟨hnd, hmem, hkeys, hsum⟩ := groupInv_groupProducts key ps
  have hof : ∀ kv ∈ groupProducts key ps, ∀ p ∈ ps, p ∈ kv.2.products → kv.1 = key p := by
    rintro ⟨k, e⟩ hkv p _ hp
    obtain ⟨hprod, -, -⟩ := hmem k e hkv
    rw [hprod, List.mem_filter] at hp
    have h2 : key p = k := by simpa using hp.2
    exact h2.symm
  refine ⟨?_, ?_, ?_, hsum⟩
  · intro p hp
    have hpfil : p ∈ ps.filter (fun q => key q = key p) :=
      List.mem_filter.mpr ⟨hp, by simp⟩
    have hkey : key p ∈ keysOf (groupProducts key ps) :=
      (hkeys (key p)).mpr (List.ne_nil_of_mem hpfil)
    obtain ⟨⟨k₀, e₀⟩, hkv, hfst⟩ := List.mem_map.mp hkey
    have hk0 : k₀ = key p := hfst
    refine ⟨(k₀, e₀), ⟨hkv, ?_⟩, ?_⟩
    · obtain ⟨hprod, -, -⟩ := hmem k₀ e₀ hkv
      rw [hprod, hk0]
      exact hpfil
    · rintro ⟨k₁, e₁⟩ ⟨hkv₁, hp₁⟩
      have hk1 : k₁ = key p := hof (k₁, e₁) hkv₁ p hp hp₁
      have : e₁ = e₀ :=
        entry_unique_of_nodup_keys _ hnd (hk1 ▸ hkv₁) (hk0 ▸ hkv)
      rw [Prod.mk.injEq]
      exact ⟨hk1.trans hk0.symm, this⟩
  · intro p hp kv hkv hpin
    exact hof kv hkv p hp hpin
  · rintro ⟨k, e⟩ hkv
    obtain ⟨-, hcnt, hdat⟩ := hmem k e hkv
    exact ⟨hcnt, by rw [hcnt, hdat, List.length_map]⟩

/-- **C5.** `process_and_plot_groups` partitions the accepted products:
each product lies in exactly one detailed group and exactly one simple
group, each group's stored count equals its number of products and of
dates, and the detailed counts sum to the total number of products. -/
theorem claim_C5 (ps : List Step1Product) :
    (∀ p ∈ ps, ∃! kv : KeyFull × GroupEntry,
        kv ∈ groupProducts keyFull ps ∧ p ∈ kv.2.products)
    ∧ (∀ p ∈ ps, ∃! kv : KeySimple × GroupEntry,
        kv ∈ groupProducts keySimple ps ∧ p ∈ kv.2.products)
    ∧ (∀ p ∈ ps, ∀ kv ∈ groupProducts keyFull ps, p ∈ kv.2.products → kv.1 = keyFull p)
    ∧ (∀ kv ∈ groupProducts keyFull ps,
        kv.2.count = kv.2.products.length ∧ kv.2.count = kv.2.dates.length)
    ∧ (∀ kv ∈ groupProducts keySimple ps,
        kv.2.count = kv.2.products.length ∧ kv.2.count = kv.2.dates.length)
    ∧ ((groupProducts keyFull ps).map (fun kv => kv.2.count)).sum = ps.length :=
  ⟨(grouping_spec keyFull ps).1, (grouping_spec keySimple ps).1,
    (grouping_spec keyFull ps).2.1, (grouping_spec keyFull ps).2.2.1,
    (grouping_spec keySimple ps).2.2.1, (grouping_spec keyFull ps).2.2.2⟩

/-- A concrete accepted product (path 86, frame 477). -/
def prodA : Step1Product :=
  { filename := "S1A_IW_SLC__1SDV_A", date := 100, platform := "Sentinel-1A",
    polarization := "VV", orbit_direction := "ASCENDING", path := "86",
    frame := "477", coverage_percent := 100 }

/-- A second product with the same acquisition geometry, 12 days later. -/
def prodB : Step1Product :=
  { filename := "S1A_IW_SLC__1SDV_B", date := 112, platform := "Sentinel-1A",
    polarization := "VV", orbit_direction := "ASCENDING", path := "86",
    frame := "477", coverage_percent := 100 }

/-- Witness for C5 on a concrete two-product list. -/
theorem claim_C5_witness :
    prodA ∈ [prodA, prodB]
    ∧ (∃! kv : KeyFull × GroupEntry,
        kv ∈ groupProducts keyFull [prodA, prodB] ∧ prodA ∈ kv.2.products)
    ∧ ((groupProducts keyFull [prodA, prodB]).map (fun kv => kv.2.count)).sum
        = ([prodA, prodB] : List Step1Product).length :=
  ⟨by decide, (claim_C5 [prodA, prodB]).1 prodA (by decide),
    (claim_C5 [prodA, prodB]).2.2.2.2.2⟩

/-- Digits-only natural number parse (helper for the `int()` model). -/
def parseNatDigits (l : List Char) : Option ℕ :=
  if l ≠ [] ∧ l.all (fun c => c.isDigit) then
    some (l.foldl (fun n c => n * 10 + (c.toNat - 48)) 0)
  else none

/-- Model of the Python `int()` conversion applied to a config string:
an optional sign followed by decimal digits; anything else raises
`ValueError`, embedded as `none`. -/
def pyInt (s : String) : Option ℤ :=
  match s.toList with
  | [] => none
  | c :: cs =>
    if c = '-' then (parseNatDigits cs).map (fun n => -(n : ℤ))
    else if c = '+' then (parseNatDigits cs).map (fun n => (n : ℤ))
    else (parseNatDigits (c :: cs)).map (fun n => (n : ℤ))

/-- Embedding of the `min_images` validation in `read_config`
(step-1, lines 79-89): default `'10'`, convert with `int()`, reject
non-integers and values `<= 0` (both raise `ValueError`). -/
def parse_min_images (raw : Option String) : Except String ℤ :=
  let s := raw.getD "10"
  match pyInt s with
  | none => Except.error "Invalid min_images: must be a positive integer"
  | some n =>
    if n ≤ 0 then Except.error "min_images must be a positive integer"
    else Except.ok n

/-- The detailed group of `[prodA, prodB]`: one key with count 2. -/
def groupAB : KeyFull × GroupEntry :=
  (("VV", "ASCENDING", "Sentinel-1A", "86", "477"),
   { count := 2, dates := [100, 112], products := [prodA, prodB] })

/-- **C2, counterexample.** With `min_images = 2` and two products in the
same detailed group, the group's count reaches `min_images`, yet
`process_and_plot_groups` returns it in neither filtered grouping: the
code keeps only groups with `count > min_images`, not `count >= min_images`. -/
theorem claim_C2_counterexample :
    groupAB ∈ groupProducts keyFull [prodA, prodB]
    ∧ 2 ≤ groupAB.2.count
    ∧ groupAB ∉ (process_and_plot_groups 2 [prodA, prodB]).1
    ∧ (process_and_plot_groups 2 [prodA, prodB]).1 = []
    ∧ (process_and_plot_groups 2 [prodA, prodB]).2 = [] := by
  refine ⟨?_, ?_, ?_, ?_, ?_⟩ <;> decide

/-- **C2, amended.** A group appears in the filtered result (detailed and
simple) iff its image count strictly exceeds `min_images`
(`count > min_images`); `min_images` is validated to be a positive integer. -/
theorem claim_C2 (min_images : ℕ) (ps : List Step1Product)
    (kv : KeyFull × GroupEntry) (kvs : KeySimple × GroupEntry) :
    (kv ∈ (process_and_plot_groups min_images ps).1
      ↔ kv ∈ groupProducts keyFull ps ∧ min_images < kv.2.count)
    ∧ (kvs ∈ (process_and_plot_groups min_images ps).2
      ↔ kvs ∈ groupProducts keySimple ps ∧ min_images < kvs.2.count)
    ∧ (∀ raw n, parse_min_images raw = Except.ok n → 0 < n) := by
  refine ⟨?_, ?_, ?_⟩
  · rw [process_and_plot_groups]
    simp [List.mem_filter]
  · rw [process_and_plot_groups]
    simp [List.mem_filter]
  · intro raw n h
    unfold parse_min_images at h
    dsimp only at h
    rcases hp : pyInt (raw.getD "10") with - | v
    · rw [hp] at h
      simp at h
    · rw [hp] at h
      by_cases hv : v ≤ 0
      · simp [hv] at h
      · simp [hv] at h
        omega

/-- The simple group of `[prodA, prodB]`. -/
def groupABsimple : KeySimple × GroupEntry :=
  (("VV", "ASCENDING", "86"),
   { count := 2, dates := [100, 112], products := [prodA, prodB] })

/-- Witness for C2 (amended): with `min_images = 1` the two-product group
is returned, and `parse_min_images` accepts the default `'10'`. -/
theorem claim_C2_witness :
    (groupAB ∈ groupProducts keyFull [prodA, prodB] ∧ 1 < groupAB.2.count)
    ∧ groupAB ∈ (process_and_plot_groups 1 [prodA, prodB]).1
    ∧ parse_min_images (some "10") = Except.ok 10
    ∧ 0 < (10 : ℤ) :=
  ⟨⟨by decide, by decide⟩,
    (claim_C2 1 [prodA, prodB] groupAB groupABsimple).1.mpr ⟨by decide, by decide⟩,
    by rfl,
    (claim_C2 1 [prodA, prodB] groupAB groupABsimple).2.2 (some "10") 10 (by rfl)⟩

/-!
Temporal gap detection (`plot_temporal`, step-1, lines 151-167).
Image dates are day ordinals (the script parses `'%Y-%m-%d'` strings, so
times are midnight and `timedelta.days` is exact); gap markers are rational
(`timedelta(days=delta_days / 2)` is an exact half-day multiple).
-/

/-- The gap-marker loop of `plot_temporal` (lines 160-165) over an already
sorted date list: for each consecutive pair more than 12 days apart, emit
`dates[i] + delta_days / 2`. -/
def gapMidpoints : List ℤ → List ℚ
  | a :: b :: rest =>
    if 12 < b - a then
      ((a : ℚ) + ((b : ℚ) - (a : ℚ)) / 2) :: gapMidpoints (b :: rest)
    else gapMidpoints (b :: rest)
  | _ => []

/-- `plot_temporal`: sort the group's images by date (line 151), then emit
the gap markers. -/
def plot_temporal_gaps (imageDates : List ℤ) : List ℚ :=
  gapMidpoints (List.insertionSort (· ≤ ·) imageDates)

lemma gapMidpoints_eq (ds : List ℤ) :
    gapMidpoints ds = (ds.zip ds.tail).filterMap
      (fun ab => if 12 < ab.2 - ab.1 then some (((ab.1 : ℚ) + (ab.2 : ℚ)) / 2) else none) := by
  induction ds with
  | nil => rfl
  | cons a rest ih =>
    cases rest with
    | nil => rfl
    | cons b rest2 =>
      have hmid : (a : ℚ) + ((b : ℚ) - (a : ℚ)) / 2 = ((a : ℚ) + (b : ℚ)) / 2 := by ring
      by_cases h : 12 < b - a
      · simp only [gapMidpoints, if_pos h, List.zip_cons_cons, List.tail_cons,
          List.filterMap_cons] at ih ⊢
        simp [h, ih, hmid]
      · simp only [gapMidpoints, if_neg h, List.zip_cons_cons, List.tail_cons,
          List.filterMap_cons] at ih ⊢
        simp [h, ih]

/-- **C7.** After sorting a group's images by date, a gap marker is produced
between two consecutive dates iff they are more than 12 days apart, and each
marker sits at the temporal midpoint `(d_i + d_{i+1}) / 2` of its pair. -/
theorem claim_C7 (imageDates : List ℤ) :
    List.Sorted (· ≤ ·) (List.insertionSort (· ≤ ·) imageDates)
    ∧ plot_temporal_gaps imageDates
        = ((List.insertionSort (· ≤ ·) imageDates).zip
            (List.insertionSort (· ≤ ·) imageDates).tail).filterMap
            (fun ab => if 12 < ab.2 - ab.1 then some (((ab.1 : ℚ) + (ab.2 : ℚ)) / 2) else none) :=
  ⟨List.sorted_insertionSort _ _, gapMidpoints_eq _⟩

/-!
DEM tile enumeration (`download_dem`, step-2, lines 399-418).
-/

/-- `range(a, b)` over integers. -/
def rangeZ (a b : ℤ) : List ℤ := (List.range (b - a).toNat).map (fun i : ℕ => a + (i : ℤ))

/-- `lat_tiles = range(int(np.floor(lat_min)), int(np.ceil(lat_max)))` (line 402). -/
def lat_tiles (latMin latMax : ℚ) : List ℤ := rangeZ ⌊latMin⌋ ⌈latMax⌉

/-- `lon_tiles = range(int(np.floor(lon_min)), int(np.ceil(lon_max)))` (line 403). -/
def lon_tiles (lonMin lonMax : ℚ) : List ℤ := rangeZ ⌊lonMin⌋ ⌈lonMax⌉

/-- The `(lat, lon)` pairs enumerated by the nested tile loops (lines 406-407). -/
def demTileGrid (latMin latMax lonMin lonMax : ℚ) : List (ℤ × ℤ) :=
  (lat_tiles latMin latMax).flatMap
    (fun la => (lon_tiles lonMin lonMax).map (fun lo => (la, lo)))

lemma mem_rangeZ {a b x : ℤ} : x ∈ rangeZ a b ↔ a ≤ x ∧ x < b := by
  constructor
  · intro hx
    obtain ⟨i, hi, hix⟩ := List.mem_map.mp hx
    rw [List.mem_range, Int.lt_toNat] at hi
    have hnn : (0 : ℤ) ≤ (i : ℤ) := Int.natCast_nonneg i
    rw [← hix]
    constructor
    · linarith
    · linarith
  · intro h
    apply List.mem_map.mpr
    refine ⟨(x - a).toNat, ?_, ?_⟩
    · rw [List.mem_range]
      omega
    · rw [Int.toNat_of_nonneg (by omega : (0 : ℤ) ≤ x - a)]
      ring

lemma mem_demTileGrid {latMin latMax lonMin lonMax : ℚ} {t : ℤ × ℤ} :
    t ∈ demTileGrid latMin latMax lonMin lonMax
      ↔ (⌊latMin⌋ ≤ t.1 ∧ t.1 < ⌈latMax⌉) ∧ (⌊lonMin⌋ ≤ t.2 ∧ t.2 < ⌈lonMax⌉) := by
  rcases t with ⟨la, lo⟩
  unfold demTileGrid
  simp only [List.mem_flatMap, List.mem_map]
  constructor
  · rintro ⟨x, hx, y, hy, heq⟩
    obtain ⟨h1, h2⟩ := Prod.ext_iff.mp heq
    simp only at h1 h2
    subst h1
    subst h2
    exact ⟨mem_rangeZ.mp hx, mem_rangeZ.mp hy⟩
  · rintro ⟨h1, h2⟩
    exact ⟨la, mem_rangeZ.mpr h1, lo, mem_rangeZ.mpr h2, rfl⟩

/-- **C8.** For `lat_min < lat_max` and `lon_min < lon_max` the enumerated
tile grid is nonempty, and every point of the half-open bounding box lies in
the one-degree cell of some enumerated tile. -/
theorem claim_C8 (latMin latMax lonMin lonMax : ℚ)
    (hlat : latMin < latMax) (hlon : lonMin < lonMax) :
    demTileGrid latMin latMax lonMin lonMax ≠ []
    ∧ ∀ la lo : ℚ, latMin ≤ la → la < latMax → lonMin ≤ lo → lo < lonMax →
        ∃ t ∈ demTileGrid latMin latMax lonMin lonMax,
          (t.1 : ℚ) ≤ la ∧ la < (t.1 : ℚ) + 1 ∧ (t.2 : ℚ) ≤ lo ∧ lo < (t.2 : ℚ) + 1 := by
  have hlatc : ⌊latMin⌋ < ⌈latMax⌉ := by
    have h1 : (⌊latMin⌋ : ℚ) ≤ latMin := Int.floor_le latMin
    have h2 : latMax ≤ (⌈latMax⌉ : ℚ) := Int.le_ceil latMax
    exact_mod_cast lt_of_le_of_lt h1 (lt_of_lt_of_le hlat h2)
  have hlonc : ⌊lonMin⌋ < ⌈lonMax⌉ := by
    have h1 : (⌊lonMin⌋ : ℚ) ≤ lonMin := Int.floor_le lonMin
    have h2 : lonMax ≤ (⌈lonMax⌉ : ℚ) := Int.le_ceil lonMax
    exact_mod_cast lt_of_le_of_lt h1 (lt_of_lt_of_le hlon h2)
  constructor
  · intro hc
    have hmem : (⌊latMin⌋, ⌊lonMin⌋) ∈ demTileGrid latMin latMax lonMin lonMax :=
      mem_demTileGrid.mpr ⟨⟨le_refl _, hlatc⟩, ⟨le_refl _, hlonc⟩⟩
    rw [hc] at hmem
    exact List.not_mem_nil _ hmem
  · intro la lo h1 h2 h3 h4
    refine ⟨(⌊la⌋, ⌊lo⌋), mem_demTileGrid.mpr ⟨⟨?_, ?_⟩, ⟨?_, ?_⟩⟩,
      Int.floor_le la, ?_, Int.floor_le lo, ?_⟩
    · exact Int.floor_le_floor h1
    · exact Int.lt_ceil.mpr (lt_of_le_of_lt (Int.floor_le la) h2)
    · exact Int.floor_le_floor h3
    · exact Int.lt_ceil.mpr (lt_of_le_of_lt (Int.floor_le lo) h4)
    · exact_mod_cast Int.lt_floor_add_one la
    · exact_mod_cast Int.lt_floor_add_one lo

/-- Witness for C8 at the bounding box `[1/2, 3/2] × [1/4, 1/2]`. -/
theorem claim_C8_witness :
    ((1 : ℚ)/2 < 3/2 ∧ (1 : ℚ)/4 < 1/2)
    ∧ (demTileGrid (1/2) (3/2) (1/4) (1/2) ≠ []
      ∧ ∀ la lo : ℚ, 1/2 ≤ la → la < 3/2 → 1/4 ≤ lo → lo < 1/2 →
          ∃ t ∈ demTileGrid (1/2) (3/2) (1/4) (1/2),
            (t.1 : ℚ) ≤ la ∧ la < (t.1 : ℚ) + 1 ∧ (t.2 : ℚ) ≤ lo ∧ lo < (t.2 : ℚ) + 1) :=
  ⟨⟨by norm_num, by norm_num⟩,
    claim_C8 (1/2) (3/2) (1/4) (1/2) (by norm_num) (by norm_num)⟩

/-!
DEM download (`download_dem`, step-2, lines 392-488).  Remote tile fetches
and the rasterio copy/merge are embedded as outcome oracles; the function's
observable result is its boolean return value together with the raster it
writes at the configured DEM path, if any.
-/

/-- Outcome of processing one tile of the grid: the `.hgt` already exists;
it is downloaded and extracted; the download succeeds but the `.hgt` is
missing after extraction; or the request/extraction raises. -/
inductive TileOutcome where
  | cached : TileOutcome
  | fetched : TileOutcome
  | extractMissing : TileOutcome
  | fetchFailed : TileOutcome
deriving DecidableEq

/-- A tile contributes to `dem_tiles` iff it is cached or fetched
(lines 420-423 and 434-439). -/
def tileObtained : TileOutcome → Bool
  | TileOutcome.cached => true
  | TileOutcome.fetched => true
  | TileOutcome.extractMissing => false
  | TileOutcome.fetchFailed => false

/-- Zero-padded decimal rendering (`{:02d}` / `{:03d}`). -/
def padNum (w : ℕ) (n : ℕ) : String :=
  let s := toString n
  String.mk (List.replicate (w - s.length) '0') ++ s

/-- `lat_str` of a tile (line 408). -/
def latStr (lat : ℤ) : String :=
  (if 0 ≤ lat then "N" else "S") ++ padNum 2 lat.natAbs

/-- `lon_str` of a tile (line 409). -/
def lonStr (lon : ℤ) : String :=
  (if 0 ≤ lon then "E" else "W") ++ padNum 3 lon.natAbs

/-- The `.hgt` file name of a tile (line 418, without the directory). -/
def hgtName (t : ℤ × ℤ) : String := latStr t.1 ++ lonStr t.2 ++ ".hgt"

/-- The inputs and remote-world oracles of one `download_dem` run. -/
structure DemConfigState where
  download_dem : Bool
  dem_file_exists : Bool
  lonMin : ℚ
  latMin : ℚ
  lonMax : ℚ
  latMax : ℚ
  tileOutcome : ℤ × ℤ → TileOutcome
  raster_op_ok : Bool
  dem_file : String

/-- The `dem_tiles` list accumulated by the tile loop (lines 405-442). -/
def obtainedTiles (s : DemConfigState) : List String :=
  (demTileGrid s.latMin s.latMax s.lonMin s.lonMax).filterMap
    (fun t => if tileObtained (s.tileOutcome t) then some (hgtName t) else none)

/-- How the output raster was produced. -/
inductive RasterSource where
  | copyOf (tile : String) : RasterSource
  | mergedOf (tiles : List String) : RasterSource
deriving DecidableEq

/-- The raster written at the DEM output path. -/
structure RasterOut where
  driver : String
  crsEpsg : ℕ
  path : String
  source : RasterSource
deriving DecidableEq

/-- Embedding of `download_dem` (lines 392-488): return `True` immediately
when downloading is disabled or the DEM file already exists; collect the
tiles; `False` with no raster when none was obtained or when the rasterio
copy/merge raises; otherwise write a GTiff EPSG:4326 raster at the DEM
path — copied from the single tile, or merged from all tiles — and return
`True`. -/
def download_dem (s : DemConfigState) : Bool × Option RasterOut :=
  if !s.download_dem || s.dem_file_exists then (true, none)
  else
    let dem_tiles := obtainedTiles s
    if dem_tiles = [] then (false, none)
    else if s.raster_op_ok = false then (false, none)
    else if dem_tiles.length = 1 then
      (true, some { driver := "GTiff", crsEpsg := 4326, path := s.dem_file,
                    source := RasterSource.copyOf (dem_tiles.headD "") })
    else
      (true, some { driver := "GTiff", crsEpsg := 4326, path := s.dem_file,
                    source := RasterSource.mergedOf dem_tiles })

/-- **C6.** `download_dem` returns `True` exactly when downloading is
disabled, the DEM file already exists, or a raster was produced; whenever at
least one tile is obtained and the raster operation succeeds a raster is
produced; and any produced raster is a GTiff in EPSG:4326 at the configured
DEM path, copied from the tile when exactly one was obtained and merged from
all obtained tiles when more than one was. -/
theorem claim_C6 (s : DemConfigState) :
    ((download_dem s).1 = true ↔
      (s.download_dem = false ∨ s.dem_file_exists = true ∨ (download_dem s).2.isSome = true))
    ∧ (s.download_dem = true → s.dem_file_exists = false → s.raster_op_ok = true →
        obtainedTiles s ≠ [] → (download_dem s).2.isSome = true)
    ∧ (∀ ro : RasterOut, (download_dem s).2 = some ro →
        ro.driver = "GTiff" ∧ ro.crsEpsg = 4326 ∧ ro.path = s.dem_file
        ∧ ((obtainedTiles s).length = 1 →
            ro.source = RasterSource.copyOf ((obtainedTiles s).headD ""))
        ∧ (1 < (obtainedTiles s).length →
            ro.source = RasterSource.mergedOf (obtainedTiles s))) := by
  cases hdd : s.download_dem with
  | false =>
    refine ⟨?_, ?_, ?_⟩
    · simp [download_dem, hdd]
    · intro h
      simp at h
    · intro ro hro
      simp [download_dem, hdd] at hro
  | true =>
    cases hfe : s.dem_file_exists with
    | true =>
      refine ⟨?_, ?_, ?_⟩
      · simp [download_dem, hdd, hfe]
      · intro _ h
        simp at h
      · intro ro hro
        simp [download_dem, hdd, hfe] at hro
    | false =>
      by_cases htl : obtainedTiles s = []
      · refine ⟨?_, ?_, ?_⟩
        · simp [download_dem, hdd, hfe, htl]
        · intro _ _ _ hne
          exact absurd htl hne
        · intro ro hro
          simp [download_dem, hdd, hfe, htl] at hro
      · cases hro : s.raster_op_ok with
        | false =>
          refine ⟨?_, ?_, ?_⟩
          · simp [download_dem, hdd, hfe, htl, hro]
          · intro _ _ h
            simp at h
          · intro ro hr
            simp [download_dem, hdd, hfe, htl, hro] at hr
        | true =>
          have hpos : 0 < (obtainedTiles s).length := List.length_pos.mpr htl
          by_cases hlen : (obtainedTiles s).length = 1
          · refine ⟨?_, ?_, ?_⟩
            · simp [download_dem, hdd, hfe, htl, hro, hlen]
            · intro _ _ _ _
              simp [download_dem, hdd, hfe, htl, hro, hlen]
            · intro ro hr
              simp only [download_dem, hdd, hfe, Bool.not_true, Bool.false_or,
                if_neg (by simp : ¬(false = true)), if_neg htl, hro,
                if_neg (by simp : ¬(true = false)), if_pos hlen,
                Option.some.injEq] at hr
              rw [← hr]
              refine ⟨rfl, rfl, rfl, fun _ => rfl, fun hgt => ?_⟩
              omega
          · refine ⟨?_, ?_, ?_⟩
            · simp [download_dem, hdd, hfe, htl, hro, hlen]
            · intro _ _ _ _
              simp [download_dem, hdd, hfe, htl, hro, hlen]
            · intro ro hr
              simp only [download_dem, hdd, hfe, Bool.not_true, Bool.false_or,
                if_neg (by simp : ¬(false = true)), if_neg htl, hro,
                if_neg (by simp : ¬(true = false)), if_neg hlen,
                Option.some.injEq] at hr
              rw [← hr]
              exact ⟨rfl, rfl, rfl, fun h1 => absurd h1 hlen, fun _ => rfl⟩

/-- A concrete one-tile DEM run: bbox inside cell `(0, 0)`, tile cached. -/
def demStateW : DemConfigState :=
  { download_dem := true, dem_file_exists := false,
    lonMin := Rat.divInt 1 4, latMin := Rat.divInt 1 4,
    lonMax := Rat.divInt 3 4, latMax := Rat.divInt 3 4,
    tileOutcome := fun _ => TileOutcome.cached,
    raster_op_ok := true, dem_file := "dem/dem.tif" }

/-- The raster `download_dem` produces on `demStateW`. -/
def rasterW : RasterOut :=
  { driver := "GTiff", crsEpsg := 4326, path := "dem/dem.tif",
    source := RasterSource.copyOf "N00E000.hgt" }

/-- Witness for C6: on the one-tile run a copied GTiff EPSG:4326 raster is
produced at the configured path. -/
theorem claim_C6_witness :
    (download_dem demStateW).2 = some rasterW
    ∧ (rasterW.driver = "GTiff" ∧ rasterW.crsEpsg = 4326
        ∧ rasterW.path = demStateW.dem_file
        ∧ ((obtainedTiles demStateW).length = 1 →
            rasterW.source = RasterSource.copyOf ((obtainedTiles demStateW).headD ""))
        ∧ (1 < (obtainedTiles demStateW).length →
            rasterW.source = RasterSource.mergedOf (obtainedTiles demStateW))) :=
  ⟨by decide, (claim_C6 demStateW).2.2 rasterW (by decide)⟩

/-!
Orbit file download (`download_orbit`, step-2, lines 233-313).  The two ESA
page listings (POEORB and RESORB) are embedded as lists of link names; the
datetime `strptime('%Y%m%dT%H%M%S')` parse is embedded on the fixed-width
15-character form, producing a packed `YYYYMMDDHHMMSS` numeric key whose
order matches datetime order; the satellite is embedded by its final letter
(`satellite_code[-1]`).
-/

/-- `pat` is a prefix of `s` (over character lists). -/
def listHasPre : List Char → List Char → Bool
  | [], _ => true
  | _ :: _, [] => false
  | a :: as, b :: bs => a == b && listHasPre as bs

/-- Python's `pat in s` substring test, over character lists. -/
def containsSubL (pat : List Char) : List Char → Bool
  | [] => listHasPre pat []
  | c :: cs => listHasPre pat (c :: cs) || containsSubL pat cs

/-- Python's `pat in s` substring test. -/
def containsSub (pat s : String) : Bool := containsSubL pat.toList s.toList

/-- Python's `s.endswith(pat)`. -/
def strEndsWith (s pat : String) : Bool := listHasPre pat.toList.reverse s.toList.reverse

/-- Remove every occurrence of `pat` (left to right, non-overlapping), with
explicit fuel for structural recursion. -/
def dropSubAllAux (pat : List Char) : ℕ → List Char → List Char
  | 0, _ => []
  | _ + 1, [] => []
  | fuel + 1, c :: cs =>
    if listHasPre pat (c :: cs) then dropSubAllAux pat fuel (List.drop (pat.length - 1) cs)
    else c :: dropSubAllAux pat fuel cs

/-- Python's `link.replace('.zip', '')` (line 287). -/
def eofPathOf (link : String) : String :=
  String.mk (dropSubAllAux ".zip".toList link.toList.length link.toList)

/-- Python's `s.split(sep)` over character lists. -/
def splitOnChar (sep : Char) : List Char → List (List Char)
  | [] => [[]]
  | c :: cs =>
    let r := splitOnChar sep cs
    if c == sep then [] :: r
    else (c :: r.headD []) :: r.tail

/-- `datetime.strptime(s, '%Y%m%dT%H%M%S')` on the fixed-width form
`YYYYMMDDTHHMMSS`, packed into the numeric key `YYYYMMDDHHMMSS` (the packing
is strictly monotone in the datetime, so datetime comparisons coincide with
key comparisons); malformed strings raise `ValueError`, embedded as `none`. -/
def parseCompactDT (cs : List Char) : Option ℕ :=
  match cs with
  | [y1, y2, y3, y4, m1, m2, d1, d2, t, h1, h2, i1, i2, s1, s2] =>
    if t == 'T' then
      match parseNatDigits [y1, y2, y3, y4], parseNatDigits [m1, m2],
          parseNatDigits [d1, d2], parseNatDigits [h1, h2],
          parseNatDigits [i1, i2], parseNatDigits [s1, s2] with
      | some y, some mo, some d, some h, some mi, some s =>
        if 1 ≤ mo ∧ mo ≤ 12 ∧ 1 ≤ d ∧ d ≤ 31 ∧ h ≤ 23 ∧ mi ≤ 59 ∧ s ≤ 59 then
          some (((((y * 100 + mo) * 100 + d) * 100 + h) * 100 + mi) * 100 + s)
        else none
      | _, _, _, _, _, _ => none
    else none
  | _ => none

/-- The validity interval parsed from a link name (lines 263-269):
`parts = link.split('_')`, requiring at least 8 parts, with
`validity_start = parts[6][1:]` and `validity_end = parts[7].split('.')[0]`. -/
def linkValidity (link : String) : Option (ℕ × ℕ) :=
  let parts := splitOnChar '_' link.toList
  if 8 ≤ parts.length then
    match parts[6]?, parts[7]? with
    | some p6, some p7 =>
      match parseCompactDT (p6.drop 1), parseCompactDT ((splitOnChar '.' p7).headD []) with
      | some vs, some ve => some (vs, ve)
      | _, _ => none
    | _, _ => none
  else none

/-- A link is accepted by the loop of lines 261-299: it contains the
`S1x_OPER_AUX_<orbit_type>` pattern, its validity datetimes parse, and
`validity_start <= sensing_datetime < validity_end`. -/
def linkMatches (orbitType : String) (satLetter : Char) (sensing : ℕ) (link : String) : Bool :=
  containsSub ("S1" ++ String.mk [satLetter] ++ "_OPER_AUX_" ++ orbitType) link &&
  match linkValidity link with
  | some (vs, ve) => decide (vs ≤ sensing ∧ sensing < ve)
  | none => false

/-- Process one page listing: keep hrefs ending in `.EOF.zip` (line 258),
return the extracted `.EOF` path of the first accepted link. -/
def findOrbitLink (links : List String) (orbitType : String) (satLetter : Char)
    (sensing : ℕ) : Option String :=
  ((links.filter (fun l => strEndsWith l ".EOF.zip")).find?
    (linkMatches orbitType satLetter sensing)).map eofPathOf

/-- Embedding of `download_orbit` (lines 233-313): try the preferred orbit
type first when it is `POEORB`, otherwise RESORB then POEORB (line 242);
within each type return the first matching link's `.EOF` path; `none` when
no type yields a match. -/
def download_orbit (poeorbLinks resorbLinks : List String) (sensing : ℕ)
    (satLetter : Char) (prefer_orbit_type : String) : Option String :=
  let orbit_types :=
    if prefer_orbit_type = "POEORB" then [prefer_orbit_type, "RESORB"]
    else ["RESORB", "POEORB"]
  orbit_types.findSome? (fun otype =>
    findOrbitLink (if otype = "POEORB" then poeorbLinks else resorbLinks)
      otype satLetter sensing)

lemma findOrbitLink_some {links : List String} {orbitType : String} {satLetter : Char}
    {sensing : ℕ} {path : String}
    (h : findOrbitLink links orbitType satLetter sensing = some path) :
    ∃ link ∈ links, path = eofPathOf link
      ∧ ∃ vs ve, linkValidity link = some (vs, ve) ∧ vs ≤ sensing ∧ sensing < ve := by
  unfold findOrbitLink at h
  rw [Option.map_eq_some'] at h
  obtain ⟨link, hfind, hpath⟩ := h
  have hmem : link ∈ links.filter (fun l => strEndsWith l ".EOF.zip") :=
    List.mem_of_find?_eq_some hfind
  have hp : linkMatches orbitType satLetter sensing link = true := List.find?_some hfind
  rw [linkMatches, Bool.and_eq_true] at hp
  obtain ⟨-, hval⟩ := hp
  rcases hlv : linkValidity link with - | ⟨vs, ve⟩
  · rw [hlv] at hval
    cases hval
  · rw [hlv] at hval
    have hin := of_decide_eq_true hval
    exact ⟨link, (List.mem_filter.mp hmem).1, hpath.symm, vs, ve, hlv, hin.1, hin.2⟩

lemma findOrbitLink_none {links : List String} {orbitType : String} {satLetter : Char}
    {sensing : ℕ}
    (h : ∀ link ∈ links, strEndsWith link ".EOF.zip" = false
        ∨ linkMatches orbitType satLetter sensing link = false) :
    findOrbitLink links orbitType satLetter sensing = none := by
  unfold findOrbitLink
  rw [Option.map_eq_none']
  rw [List.find?_eq_none]
  intro link hlink
  obtain ⟨hmem, hends⟩ := List.mem_filter.mp hlink
  rcases h link hmem with hbad | hno
  · rw [hends] at hbad
    cases hbad
  · simp [hno]

lemma findSome2 {f : String → Option String} {a b path : String}
    (h : List.findSome? f [a, b] = some path) : f a = some path ∨ f b = some path := by
  simp only [List.findSome?_cons, List.findSome?_nil] at h
  rcases hfa : f a with - | p
  · rcases hfb : f b with - | q
    · rw [hfa, hfb] at h
      have h2 : (none : Option String) = some path := h
      cases h2
    · rw [hfa, hfb] at h
      have h2 : (some q : Option String) = some path := h
      exact Or.inr h2
  · rw [hfa] at h
    have h2 : (some p : Option String) = some path := h
    exact Or.inl h2

/-- **C4, amended.** Whenever `download_orbit` obtains an orbit file, that
file comes from one of the two pages tried in preference order (POEORB then
RESORB when the preferred type is POEORB, otherwise RESORB then POEORB) —
so it need not be a POEORB file — and its parsed validity interval contains
the scene's sensing datetime (`validity_start <= sensing < validity_end`);
`download_orbit` returns `none` when no link of either page matches. -/
theorem claim_C4 (poeorbLinks resorbLinks : List String) (sensing : ℕ)
    (satLetter : Char) (prefer : String) :
    (∀ path, download_orbit poeorbLinks resorbLinks sensing satLetter prefer = some path →
      ∃ orbitType ∈ (["POEORB", "RESORB"] : List String),
        ∃ link ∈ (if orbitType = "POEORB" then poeorbLinks else resorbLinks),
          path = eofPathOf link
          ∧ ∃ vs ve, linkValidity link = some (vs, ve) ∧ vs ≤ sensing ∧ sensing < ve)
    ∧ ((∀ link ∈ poeorbLinks, strEndsWith link ".EOF.zip" = false
          ∨ linkMatches "POEORB" satLetter sensing link = false) →
        (∀ link ∈ resorbLinks, strEndsWith link ".EOF.zip" = false
          ∨ linkMatches "RESORB" satLetter sensing link = false) →
        download_orbit poeorbLinks resorbLinks sensing satLetter prefer = none) := by
  constructor
  · intro path h
    unfold download_orbit at h
    have hsplit : findOrbitLink poeorbLinks "POEORB" satLetter sensing = some path
        ∨ findOrbitLink resorbLinks "RESORB" satLetter sensing = some path := by
      by_cases hp : prefer = "POEORB"
      · rw [if_pos hp, hp] at h
        rcases findSome2 h with hc | hc
        · rw [if_pos rfl] at hc
          exact Or.inl hc
        · rw [if_neg (by decide)] at hc
          exact Or.inr hc
      · rw [if_neg hp] at h
        rcases findSome2 h with hc | hc
        · rw [if_neg (by decide)] at hc
          exact Or.inr hc
        · rw [if_pos rfl] at hc
          exact Or.inl hc
    rcases hsplit with hc | hc
    · obtain ⟨link, hmem, hrest⟩ := findOrbitLink_some hc
      refine ⟨"POEORB", by simp, link, ?_, hrest⟩
      rw [if_pos rfl]
      exact hmem
    · obtain ⟨link, hmem, hrest⟩ := findOrbitLink_some hc
      refine ⟨"RESORB", by simp, link, ?_, hrest⟩
      rw [if_neg (by decide)]
      exact hmem
  · intro hpoe hres
    unfold download_orbit
    have h1 : findOrbitLink poeorbLinks "POEORB" satLetter sensing = none :=
      findOrbitLink_none hpoe
    have h2 : findOrbitLink resorbLinks "RESORB" satLetter sensing = none :=
      findOrbitLink_none hres
    by_cases hp : prefer = "POEORB"
    · rw [if_pos hp, hp]
      simp [List.findSome?_cons, List.findSome?_nil, h1, h2]
    · rw [if_neg hp]
      simp [List.findSome?_cons, List.findSome?_nil, h1, h2]

/-- A RESORB link valid around 2024-01-01 12:00:00. -/
def resorbLinkW : String :=
  "S1A_OPER_AUX_RESORB_OPOD_20240101T010101_V20240101T000000_20240102T000000.EOF.zip"

/-- **C4, counterexample.** With an empty POEORB page and a matching RESORB
link, `download_orbit` (preferring POEORB) obtains an orbit file that is not
a POEORB file: the claim that every obtained file is a precise (POEORB)
orbit file is false. -/
theorem claim_C4_counterexample :
    download_orbit [] [resorbLinkW] 20240101120000 'A' "POEORB"
      = some "S1A_OPER_AUX_RESORB_OPOD_20240101T010101_V20240101T000000_20240102T000000.EOF"
    ∧ containsSub "POEORB"
        "S1A_OPER_AUX_RESORB_OPOD_20240101T010101_V20240101T000000_20240102T000000.EOF"
      = false := by
  constructor
  · decide
  · decide

/-- A POEORB link valid around 2024-01-01 12:00:00. -/
def poeorbLinkW : String :=
  "S1A_OPER_AUX_POEORB_OPOD_20240110T000000_V20240101T000000_20240102T000000.EOF.zip"

/-- Witness for C4 (amended) on a one-link POEORB page. -/
theorem claim_C4_witness :
    download_orbit [poeorbLinkW] [] 20240101120000 'A' "POEORB"
      = some "S1A_OPER_AUX_POEORB_OPOD_20240110T000000_V20240101T000000_20240102T000000.EOF"
    ∧ ∃ orbitType ∈ (["POEORB", "RESORB"] : List String),
        ∃ link ∈ (if orbitType = "POEORB" then [poeorbLinkW] else ([] : List String)),
          "S1A_OPER_AUX_POEORB_OPOD_20240110T000000_V20240101T000000_20240102T000000.EOF"
            = eofPathOf link
          ∧ ∃ vs ve, linkValidity link = some (vs, ve)
              ∧ vs ≤ 20240101120000 ∧ 20240101120000 < ve :=
  ⟨by decide,
    (claim_C4 [poeorbLinkW] [] 20240101120000 'A' "POEORB").1
      "S1A_OPER_AUX_POEORB_OPOD_20240110T000000_V20240101T000000_20240102T000000.EOF"
      (by decide)⟩

end InSARPlus
